import Mathlib

/-!
Shallow embedding of the USTHB ICT project-catalog service
(Express + SQLite, `src/routes/projects.js`, `src/db/database.js`,
auth routes in `src/unnamed/part_002`).

Tables are embedded as Lean lists in insertion (rowid) order; SQLite's
`.get` on a `SELECT` without `ORDER BY` returns the first matching row
in that order, embedded as `List.find?`.  Machine numbers from JSON
bodies are embedded as `ℚ` (the review rating may be any JSON number:
the route does not force integrality, and SQLite INTEGER affinity
stores a non-integral number as REAL).  Timestamps (`DATETIME DEFAULT
CURRENT_TIMESTAMP`) are a `Nat` clock carried in the database state.
-/

namespace Tic

/-- A row of the `users` table (`src/db/database.js`). `password`
holds the bcrypt hash, never the plaintext. -/
structure User where
  id : Nat
  username : String
  email : String
  password : String
  full_name : Option String := none
  profile_picture : Option String := none
  bio : Option String := none
  created_at : Nat := 0
deriving Repr, DecidableEq

/-- A row of the `projects` table. `«section»` is the column named
`section` (a Lean keyword). -/
structure Project where
  id : Nat
  title : String
  description : String
  author_id : Nat
  «section» : Option String := none
  group_number : Option String := none
  full_name : Option String := none
  matricule : Option String := none
  created_at : Nat := 0
deriving Repr, DecidableEq

/-- A row of the `reviews` table.  The column is declared
`rating INTEGER CHECK(rating >= 1 AND rating <= 5)`, but SQLite
INTEGER affinity stores any numeric value losslessly, so the field is
`ℚ`. -/
structure Review where
  id : Nat
  project_id : Nat
  reviewer_id : Nat
  rating : ℚ
  comment : Option String := none
  created_at : Nat := 0
deriving Repr, DecidableEq

/-- A row of the `project_files` table. -/
structure ProjectFile where
  id : Nat
  project_id : Nat
  file_path : String
  uploaded_at : Nat := 0
deriving Repr, DecidableEq

/-- The SQLite database state.  Lists are in rowid order; the
`next…Id` counters model `INTEGER PRIMARY KEY AUTOINCREMENT`; `now`
models `CURRENT_TIMESTAMP`. -/
structure DB where
  users : List User := []
  projects : List Project := []
  reviews : List Review := []
  project_files : List ProjectFile := []
  nextUserId : Nat := 1
  nextProjectId : Nat := 1
  nextReviewId : Nat := 1
  nextFileId : Nat := 1
  now : Nat := 0
deriving Repr

/-- Rows of `reviews` with a given `project_id` (in rowid order). -/
def reviewsFor (s : DB) (pid : Nat) : List Review :=
  s.reviews.filter (fun r => r.project_id == pid)

/-- Rows of `project_files` with a given `project_id` (in rowid order). -/
def filesFor (s : DB) (pid : Nat) : List ProjectFile :=
  s.project_files.filter (fun f => f.project_id == pid)

/-- Rows of `reviews` with a given `(project_id, reviewer_id)` pair,
the pair `UNIQUE(project_id, reviewer_id)` is about. -/
def pairReviews (s : DB) (pid uid : Nat) : List Review :=
  s.reviews.filter (fun r => r.project_id == pid && r.reviewer_id == uid)

/-- `SELECT * FROM projects WHERE id = ?` followed by `.get`. -/
def findProject (s : DB) (pid : Nat) : Option Project :=
  s.projects.find? (fun p => p.id == pid)

/-! ### The review upsert: `router.post("/:id/reviews")` in
`src/routes/projects.js` -/

/-- The route's rating guard `!rating || rating < 1 || rating > 5`
(accepts the request when this is `true`).  `!rating` on a JSON number
is falsiness, i.e. the number is `0`. -/
def ratingOk (r : ℚ) : Bool :=
  !(r == 0 || r < 1 || r > 5)

/-- The schema's `CHECK(rating >= 1 AND rating <= 5)` from
`src/db/database.js`. -/
def ratingCheck (r : ℚ) : Bool :=
  1 ≤ r && r ≤ 5

/-- `comment || null`: an absent or empty-string comment is stored as
NULL. -/
def normComment (c : Option String) : Option String :=
  match c with
  | some "" => none
  | c => c

/-- Outcome statuses used by the handlers (HTTP codes). -/
def mkReview (s : DB) (pid uid : Nat) (rating : ℚ) (comment : Option String) : Review :=
  { id := s.nextReviewId
    project_id := pid
    reviewer_id := uid
    rating := rating
    comment := normComment comment
    created_at := s.now }

/-- `router.post("/:id/reviews")`: validate the rating, 404 if the
project is missing, then update the existing `(project_id,
reviewer_id)` row's rating/comment in place (`UPDATE reviews SET
rating = ?, comment = ? WHERE id = ?`) or insert a new row.  Returns
the HTTP status and the new state. -/
def postReview (s : DB) (pid uid : Nat) (rating : ℚ) (comment : Option String) :
    Nat × DB :=
  if !(ratingOk rating) then (400, s)
  else
    match findProject s pid with
    | none => (404, s)
    | some _ =>
      match s.reviews.find? (fun r => r.project_id == pid && r.reviewer_id == uid) with
      | some ex =>
        (200, { s with reviews :=
          s.reviews.map (fun r =>
            if r.id == ex.id then
              { r with
                  rating := rating
                  comment := normComment comment }
            else r) })
      | none =>
        (201, { s with
            reviews := s.reviews ++ [mkReview s pid uid rating comment]
            nextReviewId := s.nextReviewId + 1 })

/-! ### Project update and delete: `router.put("/:id")` and
`router.delete("/:id")` in `src/routes/projects.js` -/

/-- The editable fields sent in a PUT body.  `title` and `description`
are NOT NULL columns; the metadata columns are nullable. -/
structure ProjFields where
  title : String
  description : String
  «section» : Option String := none
  group_number : Option String := none
  full_name : Option String := none
  matricule : Option String := none
deriving Repr, DecidableEq

/-- The row produced by `UPDATE projects SET title = ?, description =
?, section = ?, group_number = ?, full_name = ?, matricule = ? WHERE
id = ?`: every editable column is replaced, id/author_id/created_at
are untouched. -/
def replaceFields (f : ProjFields) (p : Project) : Project :=
  { p with
      title := f.title
      description := f.description
      «section» := f.«section»
      group_number := f.group_number
      full_name := f.full_name
      matricule := f.matricule }

/-- `router.put("/:id")`: 404 if the project is missing, 403 if the
requester is not the author, otherwise a full replace of the editable
fields. -/
def updateProject (s : DB) (pid uid : Nat) (f : ProjFields) : Nat × DB :=
  match findProject s pid with
  | none => (404, s)
  | some p =>
    if p.author_id ≠ uid then (403, s)
    else
      (200, { s with projects :=
        s.projects.map (fun q => if q.id == pid then replaceFields f q else q) })

/-- `DELETE FROM reviews WHERE project_id = ?`. -/
def deleteReviewsOf (s : DB) (pid : Nat) : DB :=
  { s with reviews := s.reviews.filter (fun r => !(r.project_id == pid)) }

/-- `DELETE FROM project_files WHERE project_id = ?`. -/
def deleteFilesOf (s : DB) (pid : Nat) : DB :=
  { s with project_files := s.project_files.filter (fun f => !(f.project_id == pid)) }

/-- `DELETE FROM projects WHERE id = ?`. -/
def deleteProjectRow (s : DB) (pid : Nat) : DB :=
  { s with projects := s.projects.filter (fun p => !(p.id == pid)) }

/-- `router.delete("/:id")`: 404 if missing, 403 if the requester is
not the author, otherwise delete the reviews, then the attachment
rows, then the project row, in the source's order. -/
def deleteProject (s : DB) (pid uid : Nat) : Nat × DB :=
  match findProject s pid with
  | none => (404, s)
  | some p =>
    if p.author_id ≠ uid then (403, s)
    else (200, deleteProjectRow (deleteFilesOf (deleteReviewsOf s pid) pid) pid)

/-- The `projects` row inserted by `router.post("/")`. -/
def newProj (s : DB) (uid : Nat) (f : ProjFields) : Project :=
  { id := s.nextProjectId, title := f.title, description := f.description,
    author_id := uid, «section» := f.«section»,
    group_number := f.group_number, full_name := f.full_name,
    matricule := f.matricule, created_at := s.now }

/-- The `project_files` row inserted when project creation received an
uploaded file: it references the project id the insert just
allocated. -/
def newFile (s : DB) (path : String) : ProjectFile :=
  { id := s.nextFileId, project_id := s.nextProjectId, file_path := path,
    uploaded_at := s.now }

/-- `router.post("/")`: validate title (presence, ≥ 3 chars) and
description (presence, ≥ 10 chars), insert the project row, and, when
a file was uploaded, insert one `project_files` row referencing the
fresh project id. -/
def postProject (s : DB) (uid : Nat) (f : ProjFields) (file : Option String) :
    Nat × DB :=
  if f.title == "" || f.description == "" then (400, s)
  else if f.title.length < 3 then (400, s)
  else if f.description.length < 10 then (400, s)
  else
    match file with
    | none =>
      (201, { s with
          projects := s.projects ++ [newProj s uid f]
          nextProjectId := s.nextProjectId + 1 })
    | some path =>
      (201, { s with
          projects := s.projects ++ [newProj s uid f]
          nextProjectId := s.nextProjectId + 1
          project_files := s.project_files ++ [newFile s path]
          nextFileId := s.nextFileId + 1 })

/-- The attachment-table invariant every API-reachable state enjoys:
attachment rows reference already-allocated project ids, and each
project has at most one attachment row (the only insert into
`project_files` happens once, during project creation). -/
def FilesInv (s : DB) : Prop :=
  (∀ f ∈ s.project_files, f.project_id < s.nextProjectId) ∧
  (∀ pid, (filesFor s pid).length ≤ 1)

/-! ### The aggregate read queries: `router.get("/")` and
`router.get("/:id")` in `src/routes/projects.js`

Both run

```
SELECT …, project_files.file_path,
       COALESCE(AVG(reviews.rating), 0) as avg_rating,
       COUNT(reviews.id) as review_count
FROM projects
JOIN users ON users.id = projects.author_id
LEFT JOIN project_files ON project_files.project_id = projects.id
LEFT JOIN reviews ON reviews.project_id = projects.id
… GROUP BY projects.id …
```

The two LEFT JOINs build the cross product of the project's
attachment rows and review rows (each side padded with a single NULL
row when empty); `AVG`/`COUNT` aggregate over that product.
`project_files.file_path` is a bare (non-aggregated) column in a
GROUP BY query with no `min`/`max` aggregate, so SQLite takes its
value from an arbitrary row of the group; the embedding makes that
choice a parameter `pick`, constrained by `PickOk` to pick some
attachment row of the group exactly when the project has one. -/

/-- LEFT JOIN padding: an empty right side contributes one NULL row. -/
def leftPad {α : Type} (l : List α) : List (Option α) :=
  if l.isEmpty then [none] else l.map some

/-- The group's joined rows for one project: attachments × reviews. -/
def groupRows (s : DB) (pid : Nat) : List (Option ProjectFile × Option Review) :=
  (leftPad (filesFor s pid)).flatMap (fun f =>
    (leftPad (reviewsFor s pid)).map (fun r => (f, r)))

/-- `COUNT(reviews.id)` over the group: non-NULL review components. -/
def reviewCount (s : DB) (pid : Nat) : Nat :=
  ((groupRows s pid).filterMap (fun x => x.2)).length

/-- `COALESCE(AVG(reviews.rating), 0)` over the group: the mean of the
non-NULL ratings, `0` when there are none. -/
def avgRating (s : DB) (pid : Nat) : ℚ :=
  let rs := ((groupRows s pid).filterMap (fun x => x.2)).map (fun r => r.rating)
  if rs.isEmpty then 0 else rs.sum / rs.length

/-- An admissible resolution of SQLite's bare-column choice: on an
empty attachment list the column is NULL, otherwise it is some member
of the list. -/
def PickOk (pick : List ProjectFile → Option ProjectFile) : Prop :=
  pick [] = none ∧ ∀ l, l ≠ [] → ∃ f, pick l = some f ∧ f ∈ l

/-- One output row of the list/get queries. -/
structure ProjectRow where
  id : Nat
  title : String
  description : String
  «section» : Option String := none
  group_number : Option String := none
  full_name : Option String := none
  matricule : Option String := none
  created_at : Nat := 0
  author_name : String
  author_id : Nat
  file_path : Option String := none
  avg_rating : ℚ
  review_count : Nat
deriving Repr, DecidableEq

/-- The aggregated output row for one project. -/
def projectRow (pick : List ProjectFile → Option ProjectFile)
    (s : DB) (p : Project) (author : User) : ProjectRow :=
  { id := p.id
    title := p.title
    description := p.description
    «section» := p.«section»
    group_number := p.group_number
    full_name := p.full_name
    matricule := p.matricule
    created_at := p.created_at
    author_name := author.username
    author_id := author.id
    file_path := (pick (filesFor s p.id)).map (fun f => f.file_path)
    avg_rating := avgRating s p.id
    review_count := reviewCount s p.id }

/-- `router.get("/:id")`: the single-project query (`WHERE projects.id
= ? GROUP BY projects.id`); the inner `JOIN users` drops the project
when its author row is missing, and the route answers 404 when no row
comes back. -/
def getProject (pick : List ProjectFile → Option ProjectFile)
    (s : DB) (pid : Nat) : Option ProjectRow :=
  match findProject s pid with
  | none => none
  | some p =>
    match s.users.find? (fun u => u.id == p.author_id) with
    | none => none
    | some u => some (projectRow pick s p u)

/-- Does a project pass the optional `section`/`group` filters
(conjunctive `WHERE` clauses of the list query)? -/
def matchesFilters (sec grp : Option String) (p : Project) : Bool :=
  (match sec with | none => true | some v => p.«section» == some v) &&
  (match grp with | none => true | some v => p.group_number == some v)

/-- `router.get("/")`: the list query — every project whose author row
joins and which passes the filters, aggregated, ordered newest first
(`ORDER BY projects.created_at DESC`). -/
def listProjects (pick : List ProjectFile → Option ProjectFile)
    (s : DB) (sec grp : Option String) : List ProjectRow :=
  ((s.projects.filter (matchesFilters sec grp)).filterMap (fun p =>
    (s.users.find? (fun u => u.id == p.author_id)).map
      (fun u => projectRow pick s p u))).mergeSort
    (fun a b => b.created_at ≤ a.created_at)

/-! ### Auth routes: `POST /auth/register`, `POST /auth/login`,
`GET /auth/me`

`bcrypt` and `jsonwebtoken` are external libraries; they are embedded
abstractly.  `bcryptHash` tags the plaintext (the only properties the
routes use are that hashing is deterministic per stored row and that
`bcrypt.compare p h` succeeds exactly when `h` hashes `p`).  A JWT is
a record carrying its claims, the key it was signed with, and its
expiry; `jwt.verify` succeeds exactly when the key matches the
process-wide secret and the token is not expired. -/

/-- Model of `bcrypt.hash(password, 10)` (external library; the salt
does not matter to any property proved here). -/
def bcryptHash (p : String) : String :=
  "bcrypt$" ++ p

/-- Model of `await bcrypt.compare(plain, stored)`. -/
def bcryptCompare (plain stored : String) : Bool :=
  bcryptHash plain == stored

/-- The process-wide `JWT_SECRET`. -/
def jwtSecret : String :=
  "your-secret-key-change-in-production"

/-- A signed token: the claims `{ id, username, email }`, the signing
key, and the expiry instant (`expiresIn: "7d"`). -/
structure Token where
  id : Nat
  username : String
  email : String
  key : String
  exp : Nat
deriving Repr, DecidableEq

/-- `jwt.sign({ id, username, email }, JWT_SECRET, { expiresIn: "7d" })`.
`7d` in seconds. -/
def jwtSign (id : Nat) (username email : String) (now : Nat) : Token :=
  { id := id, username := username, email := email, key := jwtSecret,
    exp := now + 7 * 24 * 60 * 60 }

/-- Model of `jwt.verify(token, JWT_SECRET)` succeeding: right key and
not yet expired. -/
def jwtVerify (t : Token) (now : Nat) : Bool :=
  t.key == jwtSecret && now < t.exp

/-- Is a character what the route's `\s` class matches (whitespace)? -/
def isSp (c : Char) : Bool :=
  c == ' ' || c == '\t' || c == '\n' || c == '\r'

/-- One-or-more characters outside `[\s@]` — the `[^\s@]+` atom. -/
def atomOk (cs : List Char) : Bool :=
  !cs.isEmpty && cs.all (fun c => !(isSp c) && c != '@')

/-- Does a domain part match `[^\s@]+\.[^\s@]+`?  Equivalently: no
whitespace or `@`, and some `.` that is neither the first nor the
last character. -/
def domainOk (cs : List Char) : Bool :=
  cs.all (fun c => !(isSp c) && c != '@') &&
  (List.range cs.length).any (fun i =>
    cs.get? i == some '.' && decide (0 < i) && decide (i + 1 < cs.length))

/-- The register route's email test
`/^[^\s@]+@[^\s@]+\.[^\s@]+$/.test(email)`: a non-empty `@`-free,
space-free local part, one `@`, and a domain part (which `domainOk`
keeps `@`-free, forcing exactly one `@` in the whole string) with an
interior dot. -/
def emailOk (e : String) : Bool :=
  match (e.toList).dropWhile (fun c => c != '@') with
  | '@' :: d => atomOk ((e.toList).takeWhile (fun c => c != '@')) && domainOk d
  | _ => false

/-- Response of `POST /auth/register`: HTTP status, optional token,
and the optional `{ id, username, email }` user payload. -/
structure RegResp where
  status : Nat
  token : Option Token := none
  user : Option (Nat × String × String) := none
deriving Repr, DecidableEq

/-- The new `users` row built by the register route's `INSERT`. -/
def mkUser (s : DB) (username email password : String) : User :=
  { id := s.nextUserId
    username := username
    email := email
    password := bcryptHash password
    created_at := s.now }

/-- `router.post("/register")`: presence check, username ≥ 3 chars,
password ≥ 6 chars, email pattern, then `SELECT id FROM users WHERE
email = ? OR username = ?` (409 on a hit), then insert and sign a
token for the fresh id. -/
def register (s : DB) (username email password : String) : RegResp × DB :=
  if username == "" || email == "" || password == "" then
    ({ status := 400 }, s)
  else if username.length < 3 then ({ status := 400 }, s)
  else if password.length < 6 then ({ status := 400 }, s)
  else if !(emailOk email) then ({ status := 400 }, s)
  else
    match s.users.find? (fun u => u.email == email || u.username == username) with
    | some _ => ({ status := 409 }, s)
    | none =>
      let u := mkUser s username email password
      ({ status := 201
         token := some (jwtSign u.id username email s.now)
         user := some (u.id, username, email) },
       { s with users := s.users ++ [u], nextUserId := s.nextUserId + 1 })

/-- Response of `POST /auth/login`: status, the error text of the JSON
body when failing, and token/user payload when succeeding. -/
structure LoginResp where
  status : Nat
  error : Option String := none
  token : Option Token := none
  user : Option (Nat × String × String) := none
deriving Repr, DecidableEq

/-- `router.post("/login")`: the single `email` body field is matched
against both columns (`WHERE email = ? OR username = ?` bound twice to
it); an unknown identifier and a wrong password both produce the same
`401 { error: "Invalid email/username or password" }` response. -/
def login (s : DB) (email password : String) : LoginResp :=
  if email == "" || password == "" then { status := 400 }
  else
    match s.users.find? (fun u => u.email == email || u.username == email) with
    | none => { status := 401, error := some "Invalid email/username or password" }
    | some u =>
      if !(bcryptCompare password u.password) then
        { status := 401, error := some "Invalid email/username or password" }
      else
        { status := 200
          token := some (jwtSign u.id u.username u.email s.now)
          user := some (u.id, u.username, u.email) }

/-- Response of `GET /auth/me`. -/
structure MeResp where
  status : Nat
  user : Option (Nat × String × String) := none
deriving Repr, DecidableEq

/-- `router.get("/me")` in the auth router: 401 when no bearer token
accompanies the request, 403 when `jwt.verify` throws (bad signature
or expired), 404 when the token's user row is gone, 200 otherwise. -/
def authMe (s : DB) (tok : Option Token) : MeResp :=
  match tok with
  | none => { status := 401 }
  | some t =>
    if !(jwtVerify t s.now) then { status := 403 }
    else
      match s.users.find? (fun u => u.id == t.id) with
      | none => { status := 404 }
      | some u => { status := 200, user := some (u.id, u.username, u.email) }

/-! ### Sample states used by witnesses and counterexamples -/

/-- Sample user 1. -/
def u1 : User :=
  { id := 1, username := "alice", email := "a@b.c", password := bcryptHash "secret1" }

/-- Sample user 2. -/
def u2 : User :=
  { id := 2, username := "bobby", email := "b@b.c", password := bcryptHash "secret2" }

/-- Sample project owned by user 1. -/
def p1 : Project :=
  { id := 1, title := "Thermostat PID",
    description := "A PID controller for lab thermostat", author_id := 1 }

/-- Sample database: two users, one project, no reviews, no files. -/
def s0 : DB :=
  { users := [u1, u2], projects := [p1], nextUserId := 3, nextProjectId := 2 }

/-- Sample review of project 1 by user 2. -/
def r1 : Review :=
  { id := 1, project_id := 1, reviewer_id := 2, rating := 4,
    comment := some "good", created_at := 7 }

/-- Sample attachment of project 1. -/
def f1 : ProjectFile :=
  { id := 1, project_id := 1, file_path := "/uploads/a.pdf", uploaded_at := 1 }

/-- A second, later attachment of project 1. -/
def f2 : ProjectFile :=
  { id := 2, project_id := 1, file_path := "/uploads/b.pdf", uploaded_at := 5 }

/-- Sample database: one review and one attachment on project 1. -/
def s1 : DB :=
  { s0 with reviews := [r1], project_files := [f1], nextReviewId := 2, nextFileId := 2 }

/-- Sample database with two attachment rows on project 1 (tolerated
historical rows), `f2` being the most recently uploaded. -/
def s2 : DB :=
  { s0 with project_files := [f1, f2], nextFileId := 3 }

/-- Sample database where project 1 has reviews rated 3 (by user 2)
and 5 (by user 1). -/
def s3 : DB :=
  { s0 with
      reviews := [{ id := 1, project_id := 1, reviewer_id := 2, rating := 3 },
                  { id := 2, project_id := 1, reviewer_id := 1, rating := 5 }]
      nextReviewId := 3 }

/-- The bare-column resolution that takes the first attachment row of
the group. -/
def pickHead : List ProjectFile → Option ProjectFile :=
  fun l => l.head?

/-- The output row the single-project query produces for project 1 of
`s3` (ratings 3 and 5, no attachment). -/
def row3 : ProjectRow :=
  { id := 1, title := "Thermostat PID",
    description := "A PID controller for lab thermostat",
    author_name := "alice", author_id := 1,
    avg_rating := 4, review_count := 2 }

/-- The output row the single-project query produces for project 1 of
`s2` under the first-row bare-column resolution. -/
def rowCex : ProjectRow :=
  { id := 1, title := "Thermostat PID",
    description := "A PID controller for lab thermostat",
    author_name := "alice", author_id := 1,
    file_path := some "/uploads/a.pdf",
    avg_rating := 0, review_count := 0 }

/-- A token signed with a key other than the process secret. -/
def badTok : Token :=
  { id := 1, username := "alice", email := "a@b.c",
    key := "some-other-key", exp := 1000000 }

/-- `submitAll`: run a sequence of review submissions by the same
reviewer on the same project through the upsert route. -/
def submitAll (s : DB) (pid uid : Nat) (subs : List (ℚ × Option String)) : DB :=
  subs.foldl (fun st rc => (postReview st pid uid rc.1 rc.2).2) s

/-! ### Helper lemmas -/

/-- The review upsert never touches the `projects` table. -/
theorem postReview_projects (s : DB) (pid uid : Nat) (r : ℚ) (c : Option String) :
    ((postReview s pid uid r c).2).projects = s.projects := by
  unfold postReview
  split
  · rfl
  · split
    · rfl
    · split <;> rfl

/-- The review upsert leaves project lookup unchanged. -/
theorem postReview_findProject (s : DB) (pid uid qid : Nat) (r : ℚ) (c : Option String) :
    findProject ((postReview s pid uid r c).2) qid = findProject s qid := by
  unfold findProject
  rw [postReview_projects]

/-- A list of length at most one that has a member is that singleton. -/
theorem length_le_one_mem {α : Type} {l : List α} {a : α}
    (h1 : l.length ≤ 1) (h2 : a ∈ l) : l = [a] := by
  cases l with
  | nil => cases h2
  | cons b t =>
    cases t with
    | nil => simp_all
    | cons c t => simp at h1

/-- The in-place rating/comment update commutes with filtering by
`(project_id, reviewer_id)`: it touches neither column. -/
theorem filter_map_update (l : List Review) (pid uid : Nat) (exid : Nat)
    (r : ℚ) (c : Option String) :
    (l.map (fun x => if x.id == exid then { x with rating := r, comment := c } else x)).filter
      (fun x => x.project_id == pid && x.reviewer_id == uid)
    = (l.filter (fun x => x.project_id == pid && x.reviewer_id == uid)).map
      (fun x => if x.id == exid then { x with rating := r, comment := c } else x) := by
  induction l with
  | nil => rfl
  | cons a t ih =>
    have hproj : (if a.id == exid then { a with rating := r, comment := c } else a).project_id
        = a.project_id := by
      by_cases h : a.id == exid <;> simp [h]
    have hrev : (if a.id == exid then { a with rating := r, comment := c } else a).reviewer_id
        = a.reviewer_id := by
      by_cases h : a.id == exid <;> simp [h]
    simp only [List.map_cons, List.filter_cons, hproj, hrev]
    by_cases hpred : (a.project_id == pid && a.reviewer_id == uid) = true
    · rw [if_pos hpred, if_pos hpred, List.map_cons, ih]
    · rw [if_neg hpred, if_neg hpred, ih]

/-- After one accepted submission on an existing project whose
`(project_id, reviewer_id)` slot held at most one row, that slot holds
exactly one row carrying the submitted rating and (normalized)
comment. -/
theorem postReview_pair (s : DB) (pid uid : Nat) (r : ℚ) (c : Option String)
    (hr : ratingOk r = true) (hp : (findProject s pid).isSome)
    (hlen : (pairReviews s pid uid).length ≤ 1) :
    ∃ i t, pairReviews ((postReview s pid uid r c).2) pid uid =
      [{ id := i, project_id := pid, reviewer_id := uid, rating := r,
         comment := normComment c, created_at := t }] := by
  obtain ⟨p, hp⟩ := Option.isSome_iff_exists.mp hp
  unfold postReview
  rw [hr, hp]
  cases hfind : s.reviews.find? (fun x => x.project_id == pid && x.reviewer_id == uid) with
  | none =>
    refine ⟨s.nextReviewId, s.now, ?_⟩
    simp only [Bool.not_true, Bool.false_eq_true, if_false]
    unfold pairReviews mkReview
    rw [List.filter_append]
    have hnil : s.reviews.filter (fun x => x.project_id == pid && x.reviewer_id == uid) = [] := by
      rw [List.filter_eq_nil_iff]
      intro a ha
      have := List.find?_eq_none.mp hfind a ha
      simpa using this
    simp [hnil]
  | some ex =>
    have hex_pred := List.find?_some hfind
    have hex_mem := List.mem_of_find?_eq_some hfind
    have hmem : ex ∈ pairReviews s pid uid :=
      List.mem_filter.mpr ⟨hex_mem, hex_pred⟩
    have hsingle : pairReviews s pid uid = [ex] := length_le_one_mem hlen hmem
    refine ⟨ex.id, ex.created_at, ?_⟩
    simp only [Bool.not_true, Bool.false_eq_true, if_false]
    unfold pairReviews at hsingle ⊢
    rw [filter_map_update, hsingle]
    have hpair : ex.project_id = pid ∧ ex.reviewer_id = uid := by
      simpa only [Bool.and_eq_true, beq_iff_eq] using hex_pred
    obtain ⟨i, epid, euid, er, ec, et⟩ := ex
    simp_all

/-- Filtering a filtered list never yields more matches than filtering
the original. -/
theorem length_filter_filter_le {α : Type} (l : List α) (p q : α → Bool) :
    ((l.filter p).filter q).length ≤ (l.filter q).length := by
  induction l with
  | nil => simp
  | cons a t ih =>
    by_cases hp : p a = true <;> by_cases hq : q a = true
    · rw [List.filter_cons, if_pos hp, List.filter_cons, if_pos hq,
        List.filter_cons, if_pos hq]
      simpa using ih
    · rw [List.filter_cons, if_pos hp, List.filter_cons, if_neg hq,
        List.filter_cons, if_neg hq]
      exact ih
    · rw [List.filter_cons, if_neg hp, List.filter_cons, if_pos hq]
      exact le_trans ih (Nat.le_succ _)
    · rw [List.filter_cons, if_neg hp, List.filter_cons, if_neg hq]
      exact ih

/-- Operations that leave `project_files` alone and never decrease the
project-id counter preserve the attachment invariant. -/
theorem filesInv_of_untouched (s s' : DB) (hf : s'.project_files = s.project_files)
    (hn : s.nextProjectId ≤ s'.nextProjectId) (h : FilesInv s) : FilesInv s' := by
  constructor
  · intro g hmem
    rw [hf] at hmem
    exact lt_of_lt_of_le (h.1 g hmem) hn
  · intro pid
    have he : filesFor s' pid = filesFor s pid := by
      unfold filesFor
      rw [hf]
    rw [he]
    exact h.2 pid

/-- The review upsert never touches the attachment table or the
project counter. -/
theorem postReview_filesInv (s : DB) (pid uid : Nat) (r : ℚ) (c : Option String)
    (h : FilesInv s) : FilesInv ((postReview s pid uid r c).2) := by
  refine filesInv_of_untouched s _ ?_ ?_ h <;>
    (unfold postReview
     split
     · rfl
     · split
       · rfl
       · split <;> rfl)

/-- Project update never touches the attachment table or the project
counter. -/
theorem updateProject_filesInv (s : DB) (pid uid : Nat) (f : ProjFields)
    (h : FilesInv s) : FilesInv ((updateProject s pid uid f).2) := by
  refine filesInv_of_untouched s _ ?_ ?_ h <;>
    (unfold updateProject
     split
     · rfl
     · split <;> rfl)

/-- Registration never touches the attachment table or the project
counter. -/
theorem register_filesInv (s : DB) (username email password : String)
    (h : FilesInv s) : FilesInv ((register s username email password).2) := by
  refine filesInv_of_untouched s _ ?_ ?_ h <;>
    (unfold register
     split
     · rfl
     · split
       · rfl
       · split
         · rfl
         · split
           · rfl
           · split <;> rfl)

/-- Project deletion only removes attachment rows, so it preserves the
attachment invariant. -/
theorem deleteProject_filesInv (s : DB) (pid uid : Nat)
    (h : FilesInv s) : FilesInv ((deleteProject s pid uid).2) := by
  unfold deleteProject
  split
  · exact h
  · split
    · exact h
    · constructor
      · intro g hmem
        exact h.1 g (List.mem_filter.mp hmem).1
      · intro q
        have he : filesFor
            (deleteProjectRow (deleteFilesOf (deleteReviewsOf s pid) pid) pid) q
            = (s.project_files.filter (fun x => !(x.project_id == pid))).filter
              (fun x => x.project_id == q) := rfl
        rw [he]
        exact le_trans (length_filter_filter_le _ _ _) (h.2 q)

/-- Project creation allocates a fresh project id and inserts at most
one attachment row, for that fresh id, so it preserves the attachment
invariant: every reachable state keeps at most one attachment row per
project. -/
theorem postProject_filesInv (s : DB) (uid : Nat) (f : ProjFields)
    (file : Option String) (h : FilesInv s) :
    FilesInv ((postProject s uid f file).2) := by
  unfold postProject
  split
  · exact h
  · split
    · exact h
    · split
      · exact h
      · cases file with
        | none =>
          dsimp only
          constructor
          · intro g hmem
            have := h.1 g hmem
            show g.project_id < s.nextProjectId + 1
            omega
          · intro q
            exact h.2 q
        | some path =>
          dsimp only
          constructor
          · intro g hmem
            rcases List.mem_append.mp hmem with hg | hg
            · have := h.1 g hg
              show g.project_id < s.nextProjectId + 1
              omega
            · have hg' : g = newFile s path := by simpa using hg
              subst hg'
              show s.nextProjectId < s.nextProjectId + 1
              omega
          · intro q
            show ((s.project_files ++ [newFile s path]).filter
              (fun x => x.project_id == q)).length ≤ 1
            rw [List.filter_append]
            by_cases hq : q = s.nextProjectId
            · have hold : s.project_files.filter (fun x => x.project_id == q) = [] := by
                rw [List.filter_eq_nil_iff]
                intro x hx hcc
                have hlt := h.1 x hx
                have hxq : x.project_id = q := by simpa using hcc
                omega
              rw [hold, List.nil_append]
              exact le_trans (List.length_filter_le _ _) (by simp)
            · have hnew : ([newFile s path].filter (fun x => x.project_id == q)) = [] := by
                rw [List.filter_eq_nil_iff]
                intro x hx hcc
                have hx' : x = newFile s path := by simpa using hx
                subst hx'
                have : s.nextProjectId = q := by simpa [newFile] using hcc
                exact hq this.symm
              rw [hnew, List.append_nil]
              exact h.2 q

/-! ### Claims -/

/-- C1: for every sequence of accepted review submissions by the same
reviewer on the same (existing) project, starting from a state whose
`(project_id, reviewer_id)` slot satisfies the uniqueness invariant,
the `reviews` table afterwards contains exactly one row for that pair,
and its rating and comment are those of the last submission (the
comment as the route stores it, `comment || null`): a later submission
overwrites the existing row in place rather than inserting a
duplicate. -/
theorem review_upsert_unique (s : DB) (pid uid : Nat)
    (subs : List (ℚ × Option String)) (last : ℚ × Option String)
    (hlast : subs.getLast? = some last)
    (hvalid : ∀ rc ∈ subs, ratingOk rc.1 = true)
    (hproj : (findProject s pid).isSome)
    (hstart : (pairReviews s pid uid).length ≤ 1) :
    ∃ i t, pairReviews (submitAll s pid uid subs) pid uid =
      [{ id := i, project_id := pid, reviewer_id := uid,
         rating := last.1, comment := normComment last.2, created_at := t }] := by
  induction subs generalizing s with
  | nil => simp at hlast
  | cons rc rest ih =>
    cases rest with
    | nil =>
      have hrc : last = rc := by
        simp only [List.getLast?_singleton, Option.some.injEq] at hlast
        exact hlast.symm
      subst hrc
      simp only [submitAll, List.foldl_cons, List.foldl_nil]
      exact postReview_pair s pid uid last.1 last.2 (hvalid last (by simp)) hproj hstart
    | cons b t =>
      have hp1 : (findProject ((postReview s pid uid rc.1 rc.2).2) pid).isSome := by
        rw [postReview_findProject]
        exact hproj
      have hlen1 : (pairReviews ((postReview s pid uid rc.1 rc.2).2) pid uid).length ≤ 1 := by
        obtain ⟨i, tm, h⟩ :=
          postReview_pair s pid uid rc.1 rc.2 (hvalid rc (by simp)) hproj hstart
        rw [h]
        simp
      have hlast' : (b :: t).getLast? = some last := by
        rw [← List.getLast?_cons_cons]
        exact hlast
      have := ih ((postReview s pid uid rc.1 rc.2).2) hlast'
        (fun x hx => hvalid x (by simp [hx])) hp1 hlen1
      simpa only [submitAll, List.foldl_cons] using this

/-- C1 witness: two concrete submissions by user 2 on project 1
(ratings 3 then 5, second with a comment) end in exactly one stored
row for the pair, carrying rating 5 and the second comment. -/
theorem review_upsert_unique_witness :
    ∃ i t, pairReviews (submitAll s0 1 2 [(3, none), (5, some "nice")]) 1 2 =
      [{ id := i, project_id := 1, reviewer_id := 2, rating := 5,
         comment := normComment (some "nice"), created_at := t }] :=
  review_upsert_unique s0 1 2 [(3, none), (5, some "nice")] (5, some "nice")
    (by decide)
    (by decide)
    (by decide)
    (by decide)

/-- C10: on the update path of the review upsert (a row by this
reviewer for this project already exists), the table keeps the same
rows in the same positions; every row keeps its id, project_id,
reviewer_id and created_at; rows other than the matched one are
untouched; the matched row gets exactly the submitted rating and the
normalized comment.  In particular the stored creation timestamp is
never refreshed by a re-submission. -/
theorem review_update_frame (s : DB) (pid uid : Nat) (r : ℚ) (c : Option String)
    (ex : Review) (hr : ratingOk r = true) (hp : (findProject s pid).isSome)
    (hfind : s.reviews.find? (fun x => x.project_id == pid && x.reviewer_id == uid)
      = some ex) :
    (postReview s pid uid r c).1 = 200 ∧
    ((postReview s pid uid r c).2).reviews.length = s.reviews.length ∧
    ∀ (i : Nat) (old : Review), s.reviews[i]? = some old →
      ((postReview s pid uid r c).2).reviews[i]? =
        some (if old.id = ex.id then
          { old with rating := r, comment := normComment c } else old) := by
  obtain ⟨p, hp'⟩ := Option.isSome_iff_exists.mp hp
  have hbranch : postReview s pid uid r c =
      (200, { s with reviews := s.reviews.map (fun x =>
        if x.id == ex.id then { x with rating := r, comment := normComment c }
        else x) }) := by
    unfold postReview
    rw [hr]
    simp only [Bool.not_true, Bool.false_eq_true, if_false]
    rw [hp', hfind]
  refine ⟨by rw [hbranch], by rw [hbranch]; simp, ?_⟩
  intro i old hold
  rw [hbranch]
  show (s.reviews.map _)[i]? = _
  rw [List.getElem?_map, hold]
  simp only [Option.map_some']
  by_cases h : old.id = ex.id
  · rw [if_pos (by simpa using h), if_pos h]
  · rw [if_neg (by simpa using h), if_neg h]

/-- C10 witness: re-submitting rating 2 over the stored review keeps
the row's id, pair and timestamp and changes only rating/comment. -/
theorem review_update_frame_witness :
    (postReview s1 1 2 2 (some "meh")).1 = 200 ∧
    ((postReview s1 1 2 2 (some "meh")).2).reviews.length = s1.reviews.length ∧
    ((postReview s1 1 2 2 (some "meh")).2).reviews[0]? =
      some (if r1.id = r1.id then
        { r1 with rating := 2, comment := normComment (some "meh") } else r1) := by
  have h := review_update_frame s1 1 2 2 (some "meh") r1 (by decide) (by decide) (by decide)
  exact ⟨h.1, h.2.1, h.2.2 0 r1 (by decide)⟩

/-- C8 (code bug): the route's guard `!rating || rating < 1 || rating
> 5` and the schema's `CHECK(rating >= 1 AND rating <= 5)` both accept
the non-integral JSON number 2.5; the upsert stores it (SQLite INTEGER
affinity keeps 2.5 as REAL), so a stored rating need not be an
integer, contradicting the declared `rating INTEGER` column and the
spec. -/
theorem review_rating_integrality_bug :
    ratingOk (5 / 2 : ℚ) = true ∧
    ratingCheck (5 / 2 : ℚ) = true ∧
    (postReview s0 1 2 (5 / 2) none).1 = 201 ∧
    ((postReview s0 1 2 (5 / 2) none).2).reviews.map (fun x => x.rating) = [5 / 2] ∧
    ((5 / 2 : ℚ)).den ≠ 1 := by
  with_unfolding_all decide

/-- `find?` by id over the full-replace map: the replacement keeps
ids, so lookups commute with the update. -/
theorem find?_map_replace (l : List Project) (pid : Nat) (f : ProjFields) (p : Project)
    (hp : l.find? (fun q => q.id == pid) = some p) :
    (l.map (fun q => if q.id == pid then replaceFields f q else q)).find?
      (fun q => q.id == pid) = some (replaceFields f p) := by
  induction l with
  | nil => simp at hp
  | cons a t ih =>
    cases hb : (a.id == pid) with
    | true =>
      simp only [List.find?, hb] at hp
      obtain rfl : a = p := by
        injection hp
      have hhead : (if a.id == pid then replaceFields f a else a) = replaceFields f a :=
        if_pos hb
      have hid2 : ((replaceFields f a).id == pid) = true := by
        simp [replaceFields, hb]
      simp only [List.map_cons, List.find?, hhead, hid2]
    | false =>
      simp only [List.find?, hb] at hp
      have hhead : (if a.id == pid then replaceFields f a else a) = a :=
        if_neg (by simp [hb])
      simp only [List.map_cons, List.find?, hhead]
      rw [hb]
      exact ih hp

/-- C3: for project update and delete, a missing id yields 404 with
the state unchanged; an existing project and a requester other than
the author yields 403 with the state unchanged (so the project and its
dependent rows are untouched); only the author's request mutates, and
a permitted update stores a full replacement of the six editable
fields while keeping id, author_id and created_at. -/
theorem project_owner_guard (s : DB) (pid uid : Nat) (f : ProjFields) :
    (findProject s pid = none →
      updateProject s pid uid f = (404, s) ∧ deleteProject s pid uid = (404, s)) ∧
    (∀ p, findProject s pid = some p → p.author_id ≠ uid →
      updateProject s pid uid f = (403, s) ∧ deleteProject s pid uid = (403, s)) ∧
    (∀ p, findProject s pid = some p → p.author_id = uid →
      (updateProject s pid uid f).1 = 200 ∧
      findProject ((updateProject s pid uid f).2) pid = some (replaceFields f p)) := by
  refine ⟨?_, ?_, ?_⟩
  · intro hnone
    unfold updateProject deleteProject
    simp [hnone]
  · intro p hp hne
    unfold updateProject deleteProject
    simp [hp, hne]
  · intro p hp hown
    have hp' : s.projects.find? (fun q => q.id == pid) = some p := hp
    unfold updateProject
    simp only [hp]
    rw [if_neg (by simp [hown])]
    refine ⟨rfl, ?_⟩
    exact find?_map_replace s.projects pid f p hp'

/-- C3 witness: on the sample state, a missing id gives 404, a
non-author gives 403 leaving the state intact, and the author's update
stores the replaced fields. -/
theorem project_owner_guard_witness :
    (updateProject s0 9 1 { title := "New title", description := "A new description" }
      = (404, s0) ∧
     deleteProject s0 9 1 = (404, s0)) ∧
    (updateProject s0 1 2 { title := "New title", description := "A new description" }
      = (403, s0) ∧
     deleteProject s0 1 2 = (403, s0)) ∧
    ((updateProject s0 1 1 { title := "New title", description := "A new description" }).1
      = 200 ∧
     findProject ((updateProject s0 1 1
        { title := "New title", description := "A new description" }).2) 1
      = some (replaceFields { title := "New title", description := "A new description" } p1)) :=
  ⟨(project_owner_guard s0 9 1 _).1 (by with_unfolding_all decide),
   (project_owner_guard s0 1 2 _).2.1 p1 (by with_unfolding_all decide)
     (by decide),
   (project_owner_guard s0 1 1 _).2.2 p1 (by with_unfolding_all decide)
     (by decide)⟩

/-- Filtering for a predicate after keeping only its complement
yields nothing. -/
theorem filter_not_filter {α : Type} (l : List α) (p : α → Bool) :
    (l.filter (fun a => !(p a))).filter p = [] := by
  induction l with
  | nil => rfl
  | cons a t ih =>
    by_cases h : p a = true <;> simp [List.filter_cons, h, ih]

/-- C4: a deletion performed by the project's author succeeds and
removes every review row of the project, every attachment row of the
project, and the project row itself (the source issues the three
DELETEs in exactly that order), leaving no orphaned dependent rows; a
subsequent single-project get finds nothing, i.e. answers 404. -/
theorem delete_cascades (s : DB) (pid uid : Nat) (p : Project)
    (pick : List ProjectFile → Option ProjectFile)
    (hp : findProject s pid = some p) (hown : p.author_id = uid) :
    (deleteProject s pid uid).1 = 200 ∧
    reviewsFor ((deleteProject s pid uid).2) pid = [] ∧
    filesFor ((deleteProject s pid uid).2) pid = [] ∧
    findProject ((deleteProject s pid uid).2) pid = none ∧
    getProject pick ((deleteProject s pid uid).2) pid = none := by
  have hstate : deleteProject s pid uid =
      (200, deleteProjectRow (deleteFilesOf (deleteReviewsOf s pid) pid) pid) := by
    unfold deleteProject
    simp only [hp]
    rw [if_neg (by simp [hown])]
  have hfindnone :
      findProject ((deleteProject s pid uid).2) pid = none := by
    rw [hstate]
    unfold findProject deleteProjectRow deleteFilesOf deleteReviewsOf
    rw [List.find?_eq_none]
    intro x hx
    simpa using (List.mem_filter.mp hx).2
  refine ⟨by rw [hstate], ?_, ?_, hfindnone, ?_⟩
  · rw [hstate]
    unfold reviewsFor deleteProjectRow deleteFilesOf deleteReviewsOf
    exact filter_not_filter s.reviews (fun r => r.project_id == pid)
  · rw [hstate]
    unfold filesFor deleteProjectRow deleteFilesOf deleteReviewsOf
    exact filter_not_filter s.project_files (fun x => x.project_id == pid)
  · unfold getProject
    rw [hfindnone]

/-- C4 witness: the author deletes project 1 on a state holding a
review and an attachment for it; both dependent sets are emptied and
the subsequent get misses. -/
theorem delete_cascades_witness :
    (deleteProject s1 1 1).1 = 200 ∧
    reviewsFor ((deleteProject s1 1 1).2) 1 = [] ∧
    filesFor ((deleteProject s1 1 1).2) 1 = [] ∧
    findProject ((deleteProject s1 1 1).2) 1 = none ∧
    getProject pickHead ((deleteProject s1 1 1).2) 1 = none :=
  delete_cascades s1 1 1 p1 pickHead (by decide) (by decide)

/-- The review components of the group rows, when the attachment side
of the join contributes exactly one row, are exactly the project's
reviews. -/
theorem pad_pairs_filterMap (x : Option ProjectFile) (rs : List Review) :
    ((leftPad rs).map (fun r => (x, r))).filterMap (fun y : Option ProjectFile × Option Review => y.2)
      = rs := by
  unfold leftPad
  by_cases h : rs.isEmpty = true
  · rw [if_pos h, List.isEmpty_iff.mp h]
    rfl
  · rw [if_neg h, List.map_map, List.filterMap_map]
    exact List.filterMap_some rs

/-- With at most one attachment row, the group rows are the reviews
paired against a single attachment column value. -/
theorem groupRows_single (s : DB) (pid : Nat) (x : Option ProjectFile)
    (h : leftPad (filesFor s pid) = [x]) :
    groupRows s pid = (leftPad (reviewsFor s pid)).map (fun r => (x, r)) := by
  unfold groupRows
  rw [h]
  simp only [List.flatMap_cons, List.flatMap_nil, List.append_nil]

/-- A list of length at most one has `leftPad` equal to `[none]` or
`[some f]` for its single member. -/
theorem leftPad_of_length_le_one (l : List ProjectFile) (h : l.length ≤ 1) :
    leftPad l = [none] ∨ ∃ f, l = [f] ∧ leftPad l = [some f] := by
  cases l with
  | nil => exact Or.inl rfl
  | cons a t =>
    cases t with
    | nil => exact Or.inr ⟨a, rfl, rfl⟩
    | cons b t2 => simp at h

/-- When the project has at most one attachment row, `COUNT` and
`COALESCE(AVG(...), 0)` over the join group are the true review count
and the true mean of the project's ratings (0 with no reviews). -/
theorem aggregates_of_single_file (s : DB) (pid : Nat)
    (hf : (filesFor s pid).length ≤ 1) :
    reviewCount s pid = (reviewsFor s pid).length ∧
    avgRating s pid = (if (reviewsFor s pid).isEmpty then 0
      else ((reviewsFor s pid).map (fun r => r.rating)).sum
        / ((reviewsFor s pid).length : ℚ)) := by
  have hx : ∃ x, leftPad (filesFor s pid) = [x] := by
    rcases leftPad_of_length_le_one (filesFor s pid) hf with h | ⟨f, _, h⟩
    · exact ⟨none, h⟩
    · exact ⟨some f, h⟩
  obtain ⟨x, hx⟩ := hx
  have hrows := groupRows_single s pid x hx
  constructor
  · unfold reviewCount
    rw [hrows, pad_pairs_filterMap]
  · simp only [avgRating]
    rw [hrows, pad_pairs_filterMap]
    by_cases h : (reviewsFor s pid).isEmpty = true
    · rw [List.isEmpty_iff.mp h]
      rfl
    · have h1 : (((reviewsFor s pid).map (fun r => r.rating)).isEmpty) = false := by
        cases hl : reviewsFor s pid with
        | nil =>
          rw [hl] at h
          exact absurd rfl h
        | cons a t => rfl
      rw [if_neg (by simp [h1]), if_neg h, List.length_map]

/-- The first-row resolution is admissible. -/
theorem headPickOk : PickOk pickHead := by
  constructor
  · rfl
  · intro l hl
    cases l with
    | nil => exact absurd rfl hl
    | cons a t => exact ⟨a, rfl, by simp⟩

/-- C2: for every project row the list query or the single-project
query returns (on a state whose project has at most one attachment
row, as every state reachable through the API does), `review_count`
is the number of the project's review rows and `avg_rating` is the
arithmetic mean of their ratings, with exactly 0 — not NULL — when
the project has no reviews. -/
theorem read_aggregates_correct (pick : List ProjectFile → Option ProjectFile) (s : DB) :
    (∀ pid row, getProject pick s pid = some row →
      (filesFor s row.id).length ≤ 1 →
      row.review_count = (reviewsFor s row.id).length ∧
      row.avg_rating = (if (reviewsFor s row.id).isEmpty then 0
        else ((reviewsFor s row.id).map (fun r => r.rating)).sum
          / ((reviewsFor s row.id).length : ℚ))) ∧
    (∀ sec grp row, row ∈ listProjects pick s sec grp →
      (filesFor s row.id).length ≤ 1 →
      row.review_count = (reviewsFor s row.id).length ∧
      row.avg_rating = (if (reviewsFor s row.id).isEmpty then 0
        else ((reviewsFor s row.id).map (fun r => r.rating)).sum
          / ((reviewsFor s row.id).length : ℚ))) := by
  constructor
  · intro pid row hrow hf
    unfold getProject at hrow
    cases hp : findProject s pid with
    | none => simp [hp] at hrow
    | some p =>
      cases hu : s.users.find? (fun u => u.id == p.author_id) with
      | none => simp [hp, hu] at hrow
      | some u =>
        simp only [hp, hu, Option.some.injEq] at hrow
        subst hrow
        exact aggregates_of_single_file s p.id hf
  · intro sec grp row hrow hf
    unfold listProjects at hrow
    rw [List.mem_mergeSort] at hrow
    obtain ⟨p, hpmem, hmap⟩ := List.mem_filterMap.mp hrow
    cases hu : s.users.find? (fun u => u.id == p.author_id) with
    | none => rw [hu] at hmap; cases hmap
    | some u =>
      rw [hu, Option.map_some', Option.some.injEq] at hmap
      subst hmap
      exact aggregates_of_single_file s p.id hf

/-- C2 witness: on the state whose project 1 has reviews rated 3 and
5, the single-project query reports `review_count = 2` and
`avg_rating = 4`. -/
theorem read_aggregates_correct_witness :
    getProject pickHead s3 1 = some row3 ∧
    (filesFor s3 row3.id).length ≤ 1 ∧
    (row3.review_count = (reviewsFor s3 row3.id).length ∧
     row3.avg_rating = (if (reviewsFor s3 row3.id).isEmpty then 0
       else ((reviewsFor s3 row3.id).map (fun r => r.rating)).sum
         / ((reviewsFor s3 row3.id).length : ℚ))) :=
  ⟨by with_unfolding_all decide, by decide,
   (read_aggregates_correct pickHead s3).1 1 row3
     (by with_unfolding_all decide) (by decide)⟩

/-- C9 (amended): when a project has attachment rows, the list and
single-project queries surface exactly one attachment reference, and
it is the `file_path` of one of the project's attachment rows (NULL
exactly when there are none) — but which row supplies it is not
determined by the query: `project_files.file_path` is a bare column
under `GROUP BY` with no `min`/`max` aggregate, so SQLite takes it
from an arbitrary row of the group, not necessarily the latest. -/
theorem attachment_reference_from_rows (pick : List ProjectFile → Option ProjectFile)
    (hpick : PickOk pick) (s : DB) :
    (∀ pid row, getProject pick s pid = some row →
      (filesFor s row.id = [] → row.file_path = none) ∧
      (filesFor s row.id ≠ [] →
        ∃ f ∈ filesFor s row.id, row.file_path = some f.file_path)) ∧
    (∀ sec grp row, row ∈ listProjects pick s sec grp →
      (filesFor s row.id = [] → row.file_path = none) ∧
      (filesFor s row.id ≠ [] →
        ∃ f ∈ filesFor s row.id, row.file_path = some f.file_path)) := by
  have main : ∀ p u, (filesFor s (projectRow pick s p u).id = [] →
      (projectRow pick s p u).file_path = none) ∧
      (filesFor s (projectRow pick s p u).id ≠ [] →
        ∃ f ∈ filesFor s (projectRow pick s p u).id,
          (projectRow pick s p u).file_path = some f.file_path) := by
    intro p u
    constructor
    · intro hnil
      show (pick (filesFor s p.id)).map _ = none
      rw [show filesFor s p.id = [] from hnil, hpick.1]
      rfl
    · intro hne
      obtain ⟨f, hpickf, hmem⟩ := hpick.2 (filesFor s p.id) hne
      refine ⟨f, hmem, ?_⟩
      show (pick (filesFor s p.id)).map _ = _
      rw [hpickf]
      rfl
  constructor
  · intro pid row hrow
    unfold getProject at hrow
    cases hp : findProject s pid with
    | none => simp [hp] at hrow
    | some p =>
      cases hu : s.users.find? (fun u => u.id == p.author_id) with
      | none => simp [hp, hu] at hrow
      | some u =>
        simp only [hp, hu, Option.some.injEq] at hrow
        subst hrow
        exact main p u
  · intro sec grp row hrow
    unfold listProjects at hrow
    rw [List.mem_mergeSort] at hrow
    obtain ⟨p, hpmem, hmap⟩ := List.mem_filterMap.mp hrow
    cases hu : s.users.find? (fun u => u.id == p.author_id) with
    | none => rw [hu] at hmap; cases hmap
    | some u =>
      rw [hu, Option.map_some', Option.some.injEq] at hmap
      subst hmap
      exact main p u

/-- C9 amended-claim witness: on the state with one attachment row,
the surfaced reference is that row's path. -/
theorem attachment_reference_from_rows_witness :
    getProject pickHead s1 1 = some (projectRow pickHead s1 p1 u1) ∧
    filesFor s1 (projectRow pickHead s1 p1 u1).id ≠ [] ∧
    (∃ f ∈ filesFor s1 (projectRow pickHead s1 p1 u1).id,
      (projectRow pickHead s1 p1 u1).file_path = some f.file_path) :=
  ⟨by with_unfolding_all decide, by decide,
   ((attachment_reference_from_rows pickHead headPickOk s1).1 1
     (projectRow pickHead s1 p1 u1) (by with_unfolding_all decide)).2
     (by decide)⟩

/-- C9 counterexample: project 1 of `s2` has two attachment rows,
`f1` (`/uploads/a.pdf`, uploaded at 1) and `f2` (`/uploads/b.pdf`,
uploaded at 5, the latest); under the admissible first-row resolution
the single-project query surfaces `/uploads/a.pdf`, not the latest
row's reference — so the claim that the latest attachment is always
surfaced is false. -/
theorem attachment_latest_cex :
    PickOk pickHead ∧
    getProject pickHead s2 1 = some rowCex ∧
    filesFor s2 1 = [f1, f2] ∧
    (filesFor s2 1).getLast? = some f2 ∧
    f1.uploaded_at < f2.uploaded_at ∧
    rowCex.file_path = some "/uploads/a.pdf" ∧
    f2.file_path = "/uploads/b.pdf" ∧
    rowCex.file_path ≠ some f2.file_path :=
  ⟨headPickOk, by with_unfolding_all decide, by decide, by decide, by decide,
   by decide, by decide, by decide⟩

/-- C5: registration fails with the 400 validation status (leaving the
state unchanged) whenever the username is shorter than 3 characters,
the password shorter than 6, or the email fails the
`local@domain.tld` pattern; when the input passes validation and an
existing user already holds the username or the email, it fails with
409 (state unchanged); and after a successful registration, any later
registration reusing the same username, or the same email, with
otherwise valid fields yields 409. -/
theorem register_validation_conflict (s : DB) (username email password : String) :
    ((username.length < 3 ∨ password.length < 6 ∨ emailOk email = false) →
      (register s username email password).1.status = 400 ∧
      (register s username email password).2 = s) ∧
    (username.length ≥ 3 → password.length ≥ 6 → emailOk email = true →
      (∃ u, s.users.find? (fun u => u.email == email || u.username == username) = some u) →
      (register s username email password).1.status = 409 ∧
      (register s username email password).2 = s) ∧
    (username.length ≥ 3 → password.length ≥ 6 → emailOk email = true →
      s.users.find? (fun u => u.email == email || u.username == username) = none →
      (register s username email password).1.status = 201 ∧
      (∀ email2 password2, password2.length ≥ 6 → emailOk email2 = true →
        (register ((register s username email password).2)
          username email2 password2).1.status = 409) ∧
      (∀ username2 password2, username2.length ≥ 3 → password2.length ≥ 6 →
        (register ((register s username email password).2)
          username2 email password2).1.status = 409)) := by
  have hlen_ne : ∀ (nm : String) (k : Nat), nm.length ≥ k + 1 → ¬(nm = "") := by
    intro nm k h heq
    subst heq
    have h0 : ("" : String).length = 0 := rfl
    omega
  have hem_ne : ∀ e : String, emailOk e = true → ¬(e = "") := by
    intro e h heq
    subst heq
    exact absurd h (by decide)
  refine ⟨?_, ?_, ?_⟩
  · rintro (h | h | h)
    · unfold register
      by_cases h0 : (username == "" || email == "" || password == "") = true
      · rw [if_pos h0]
        exact ⟨rfl, rfl⟩
      · rw [if_neg h0, if_pos h]
        exact ⟨rfl, rfl⟩
    · unfold register
      by_cases h0 : (username == "" || email == "" || password == "") = true
      · rw [if_pos h0]
        exact ⟨rfl, rfl⟩
      · rw [if_neg h0]
        by_cases h1 : username.length < 3
        · rw [if_pos h1]
          exact ⟨rfl, rfl⟩
        · rw [if_neg h1, if_pos h]
          exact ⟨rfl, rfl⟩
    · unfold register
      by_cases h0 : (username == "" || email == "" || password == "") = true
      · rw [if_pos h0]
        exact ⟨rfl, rfl⟩
      · rw [if_neg h0]
        by_cases h1 : username.length < 3
        · rw [if_pos h1]
          exact ⟨rfl, rfl⟩
        · rw [if_neg h1]
          by_cases h2 : password.length < 6
          · rw [if_pos h2]
            exact ⟨rfl, rfl⟩
          · rw [if_neg h2, if_pos (by simp [h])]
            exact ⟨rfl, rfl⟩
  · intro h3 h6 hem hex
    obtain ⟨u, hu⟩ := hex
    unfold register
    rw [if_neg (by simp [hlen_ne username 2 h3, hlen_ne password 5 h6, hem_ne email hem]),
      if_neg (by omega), if_neg (by omega), if_neg (by simp [hem])]
    simp [hu]
  · intro h3 h6 hem hnone
    have hstate : register s username email password =
        ({ status := 201
           token := some (jwtSign (mkUser s username email password).id username email s.now)
           user := some ((mkUser s username email password).id, username, email) },
         { s with users := s.users ++ [mkUser s username email password]
                  nextUserId := s.nextUserId + 1 }) := by
      unfold register
      rw [if_neg (by simp [hlen_ne username 2 h3, hlen_ne password 5 h6, hem_ne email hem]),
        if_neg (by omega), if_neg (by omega), if_neg (by simp [hem])]
      simp only [hnone]
    refine ⟨by rw [hstate], ?_, ?_⟩
    · intro email2 password2 hp2 he2
      rw [hstate]
      unfold register
      rw [if_neg (by simp [hlen_ne username 2 h3, hlen_ne password2 5 hp2, hem_ne email2 he2]),
        if_neg (by omega), if_neg (by omega), if_neg (by simp [he2])]
      have hne2 : (s.users ++ [mkUser s username email password]).find?
          (fun u => u.email == email2 || u.username == username) ≠ none := by
        intro hcontra
        have := List.find?_eq_none.mp hcontra (mkUser s username email password)
          (by simp)
        simp [mkUser] at this
      cases hfind : (s.users ++ [mkUser s username email password]).find?
          (fun u => u.email == email2 || u.username == username) with
      | none => exact absurd hfind hne2
      | some u => simp [hfind]
    · intro username2 password2 hu2 hp2
      rw [hstate]
      unfold register
      rw [if_neg (by simp [hlen_ne username2 2 hu2, hlen_ne password2 5 hp2, hem_ne email hem]),
        if_neg (by omega), if_neg (by omega), if_neg (by simp [hem])]
      have hne2 : (s.users ++ [mkUser s username email password]).find?
          (fun u => u.email == email || u.username == username2) ≠ none := by
        intro hcontra
        have := List.find?_eq_none.mp hcontra (mkUser s username email password)
          (by simp)
        simp [mkUser] at this
      cases hfind : (s.users ++ [mkUser s username email password]).find?
          (fun u => u.email == email || u.username == username2) with
      | none => exact absurd hfind hne2
      | some u => simp [hfind]

/-- C5 witness: a 2-character username is rejected with 400; a fresh
valid registration returns 201 and re-registering its username (and,
separately, its email) returns 409; registering with user 1's existing
email also returns 409. -/
theorem register_validation_conflict_witness :
    ((register s0 "ca" "x@y.z" "password").1.status = 400 ∧
     (register s0 "ca" "x@y.z" "password").2 = s0) ∧
    ((register s0 "carol" "a@b.c" "password").1.status = 409 ∧
     (register s0 "carol" "a@b.c" "password").2 = s0) ∧
    ((register s0 "carol" "x@y.z" "password").1.status = 201 ∧
     (register ((register s0 "carol" "x@y.z" "password").2)
        "carol" "q@r.st" "password2").1.status = 409 ∧
     (register ((register s0 "carol" "x@y.z" "password").2)
        "dave5" "x@y.z" "password2").1.status = 409) := by
  have h := register_validation_conflict s0 "carol" "x@y.z" "password"
  have h201 := h.2.2 (by decide) (by decide) (by decide) (by with_unfolding_all decide)
  exact ⟨(register_validation_conflict s0 "ca" "x@y.z" "password").1
      (Or.inl (by decide)),
    (register_validation_conflict s0 "carol" "a@b.c" "password").2.1
      (by decide) (by decide) (by decide)
      ⟨u1, by with_unfolding_all decide⟩,
    h201.1,
    h201.2.1 "q@r.st" "password2" (by decide) (by decide),
    h201.2.2 "dave5" "password2" (by decide) (by decide)⟩

/-- C6 (amended): the auth router's `GET /me` answers 401 only when
the bearer token is absent; a present token that fails the
signature/expiry verification is answered with 403 (`catch` branch
`res.status(403)`), not 401. -/
theorem token_error_statuses (s : DB) (tok : Option Token) :
    (tok = none → (authMe s tok).status = 401) ∧
    (∀ t, tok = some t → jwtVerify t s.now = false → (authMe s tok).status = 403) := by
  constructor
  · intro h
    subst h
    rfl
  · intro t ht hv
    subst ht
    simp [authMe, hv]

/-- C6 amended-claim witness: no token gives 401; a token signed with
a different key gives 403. -/
theorem token_error_statuses_witness :
    (authMe s0 none).status = 401 ∧
    jwtVerify badTok s0.now = false ∧
    (authMe s0 (some badTok)).status = 403 :=
  ⟨(token_error_statuses s0 none).1 rfl, by decide,
   (token_error_statuses s0 (some badTok)).2 badTok rfl (by decide)⟩

/-- C6 counterexample: a token signed with the wrong key (so failing
verification) is answered with status 403, not the 401 the claim
requires for every token-verification failure. -/
theorem token_invalid_not_401_cex :
    jwtVerify badTok s0.now = false ∧
    (authMe s0 (some badTok)).status = 403 ∧
    (403 : Nat) ≠ 401 := by
  decide

/-- C7: the login route's failure responses are observably identical
between an unknown identifier and a known identifier with a wrong
password — both runs produce the very same response (status 401, body
`Invalid email/username or password`, no token, no user), so the
caller cannot tell the two causes apart. -/
theorem login_failure_indistinguishable (sa : DB) (ida pwa : String)
    (sb : DB) (idb pwb : String)
    (hida : ida ≠ "") (hpwa : pwa ≠ "") (hidb : idb ≠ "") (hpwb : pwb ≠ "")
    (hunknown : sa.users.find? (fun u => u.email == ida || u.username == ida) = none)
    (hknown : ∃ u, sb.users.find? (fun u => u.email == idb || u.username == idb) = some u ∧
      bcryptCompare pwb u.password = false) :
    login sa ida pwa = login sb idb pwb := by
  obtain ⟨u, hu, hbad⟩ := hknown
  unfold login
  rw [if_neg (by simp [hida, hpwa]), if_neg (by simp [hidb, hpwb])]
  simp only [hunknown, hu]
  rw [if_pos (by simp [hbad])]

/-- C7 witness: an unknown identifier and user 1's username with a
wrong password produce identical responses. -/
theorem login_failure_indistinguishable_witness :
    login s0 "nobody" "whatever1" = login s0 "alice" "wrongpass" :=
  login_failure_indistinguishable s0 "nobody" "whatever1" s0 "alice" "wrongpass"
    (by decide) (by decide) (by decide) (by decide)
    (by decide) ⟨u1, by decide, by decide⟩

end Tic
